import Mathlib

/-!
Shallow embedding of the SSH-agent handler in `src/crates/kr/src/agent.rs`:
the in-memory identity registry, the FIDO2 registration-blob decoder used by
`add_identity`, and the DER-to-SSH-wire signature conversion performed by
`sign_request`.

Bytes are modelled as `List Nat` (each entry intended `< 256`); machine
`u32` values are `Nat` truncated modulo `2 ^ 32` exactly where the Rust
code truncates (`as u32` casts and 4-byte big-endian writes).  External
capabilities (the remote signing service reached through `Client`, the
`eagre_asn1` DER decoder, and sodiumoxide's SHA-256) are passed to the
embedded operations as explicit function parameters, so theorems quantify
over every possible behaviour of those dependencies.
-/

set_option linter.unusedVariables false

namespace Akr

/-- Byte strings: lists of naturals, each entry intended to be `< 256`. -/
abbrev Bytes := List Nat

/-- 4-byte big-endian encoding of `n`, as produced by
`write_u32::<BigEndian>(n as u32)` in `src/crates/kr/src/agent.rs`
(the `as u32` truncation is the `% 256` on each extracted byte). -/
def writeU32BE (n : Nat) : Bytes :=
  [n / 2 ^ 24 % 256, n / 2 ^ 16 % 256, n / 2 ^ 8 % 256, n % 256]

/-- Modelled from the spec: `read_data` lives in the repository's `util`
module, which is not among the provided sources.  Per the spec (§4.1, §6)
it reads a 4-byte big-endian length prefix followed by that many raw
bytes, failing when the declared length exceeds the remaining buffer or
the buffer ends early.  Returns the field together with the unread rest. -/
def read_data : Bytes → Option (Bytes × Bytes)
  | b0 :: b1 :: b2 :: b3 :: rest =>
    let n := ((b0 * 256 + b1) * 256 + b2) * 256 + b3
    if n ≤ rest.length then some (rest.take n, rest.drop n) else none
  | _ => none

/-- Modelled from the spec: `read_string` (repository `util` module, not
among the provided sources) reads a length-prefixed string with the same
4-byte big-endian framing as `read_data` (spec §6); its content is kept
as raw bytes here. -/
def read_string (b : Bytes) : Option (Bytes × Bytes) :=
  read_data b

/-- `cursor.read_u8()`: one byte, failing on an exhausted buffer. -/
def read_u8 : Bytes → Option (Nat × Bytes)
  | b :: rest => some (b, rest)
  | _ => none

/-- `SshFido2KeyPair` (fields as used by `agent.rs`; the struct itself is
declared in the repository's `ssh_format` module). -/
structure SshFido2KeyPair where
  application : Bytes
  key_handle : Bytes
  public_key : Bytes
  flags : Nat
deriving DecidableEq, Repr

/-- `ssh_agent::Identity` as populated by `agent.rs`: the SSH public key
blob and a comment string. -/
structure Identity where
  key_blob : Bytes
  key_comment : String
deriving DecidableEq, Repr

/-- `KryptonIdentity` from `agent.rs`: an `Identity` paired with its
FIDO2 key-pair record. -/
structure KryptonIdentity where
  id : Identity
  key_pair : SshFido2KeyPair
deriving DecidableEq, Repr

/-- The `Agent` state that the handler mutates: its identity registry.
The `client` field of the Rust struct is the handle to the remote signing
service; it is modelled as the explicit `remote` parameter of
`sign_request` instead of as state. -/
structure Agent where
  identities : List KryptonIdentity
deriving DecidableEq, Repr

/-- `Agent::new`: empty registry. -/
def Agent.new : Agent :=
  ⟨[]⟩

/-- Error taxonomy of the handler (spec §7).  `MalformedBlob` stands for
the propagated read failure in `add_identity`, `MalformedSignature` for a
DER decode failure, `RemoteSigningFailure` for a failed remote call. -/
inductive Error where
  | UnsupportedKeyType
  | MalformedBlob
  | UnknownKey
  | RemoteSigningFailure
  | MalformedSignature
deriving DecidableEq, Repr

/-- Modelled from the spec: `SshFido2KeyPair::TYPE_ID`, declared in the
repository's `ssh_format` module (not among the provided sources), is the
one supported algorithm identifier; per spec §4.1 the algorithm identifier
of these keys is `sk-ecdsa-sha2-nistp256@openssh.com`. -/
def SshFido2KeyPair.TYPE_ID : String :=
  "sk-ecdsa-sha2-nistp256@openssh.com"

/-- `SIG_TYPE_ID` from `Agent::sign_request`
(`src/crates/kr/src/agent.rs` line 239). -/
def SIG_TYPE_ID : String :=
  "sk-ecdsa-sha2-nistp256@openssh.com"

/-- The ASCII bytes of `SIG_TYPE_ID` (all characters are ASCII, so the
UTF-8 byte length used by Rust's `str::len` equals the character count). -/
def SIG_TYPE_ID_BYTES : Bytes :=
  SIG_TYPE_ID.data.map Char.toNat

/-- A 4-byte big-endian length prefix followed by the raw bytes: the SSH
wire framing of a string/byte field (spec §6). -/
def lenPrefixed (b : Bytes) : Bytes :=
  writeU32BE b.length ++ b

/-- The registration-blob decode performed inline by `Agent::add_identity`
(`src/crates/kr/src/agent.rs` lines 143-148): curve name (discarded),
public key, application, flags byte, key handle.  The cursor stops after
`key_handle`; any remaining bytes (such as the reserved field named in the
adjacent comment) are never read. -/
def decode_registration_blob (blob : Bytes) : Option SshFido2KeyPair :=
  match read_string blob with
  | none => none
  | some (_curve_name, rest) =>
    match read_data rest with
    | none => none
    | some (public_key, rest) =>
      match read_string rest with
      | none => none
      | some (application, rest) =>
        match read_u8 rest with
        | none => none
        | some (flags, rest) =>
          match read_data rest with
          | none => none
          | some (key_handle, _rest) =>
            some ⟨application, key_handle, public_key, flags⟩

/-- Modelled from the spec: `SshFido2KeyPair::fmt_public_key` lives in the
repository's `ssh_format` module, which is not among the provided sources.
Per spec §4.1 it deterministically produces the SSH-format public key
blob: the length-prefixed algorithm identifier followed by the EC point,
the application string and the flags byte in the SSH wire convention.
(The Rust function returns `Result` only because it writes through the
`io::Write` trait; writes into a `Vec` cannot fail.) -/
def SshFido2KeyPair.fmt_public_key (r : SshFido2KeyPair) : Bytes :=
  lenPrefixed SIG_TYPE_ID_BYTES ++ lenPrefixed r.public_key ++
    lenPrefixed r.application ++ [r.flags % 256]

/-- `Agent::identities`: the registry snapshot exposed to the client,
in registration order (`agent.rs` lines 121-124). -/
def identities (a : Agent) : List Identity :=
  a.identities.map fun k => k.id

/-- `Agent::add_identity` (`agent.rs` lines 126-167): reject an unsupported
`key_type`; decode the registration blob, failing on a malformed one;
otherwise append the new identity (with an empty comment) to the registry. -/
def add_identity (a : Agent) (key_type : String) (key_blob : Bytes) :
    Agent × Except Error Unit :=
  if key_type ≠ SshFido2KeyPair.TYPE_ID then
    (a, .error .UnsupportedKeyType)
  else
    match decode_registration_blob key_blob with
    | none => (a, .error .MalformedBlob)
    | some kp =>
      (⟨a.identities ++ [⟨⟨kp.fmt_public_key, ""⟩, kp⟩]⟩, .ok ())

/-- The outbound `AuthenticateRequest` body built by `sign_request`
(challenge fingerprint, relying-party id, key handle; the unused
`extensions`/`key_handles` fields are omitted). -/
structure AuthenticateRequest where
  challenge : Bytes
  rp_id : Bytes
  key_handle : Bytes
deriving DecidableEq, Repr

/-- The remote service's `AuthenticateResponse`: DER signature bytes and a
`u32` counter. -/
structure AuthenticateResponse where
  signature : Bytes
  counter : Nat
deriving DecidableEq, Repr

/-- Everything observable about one `sign_request` call: the registry
afterwards, the returned value, and the requests sent to the remote
signing service (in order). -/
structure SignOutcome where
  agent : Agent
  result : Except Error Bytes
  sent : List AuthenticateRequest
deriving Repr

/-- `Agent::sign_request` (`agent.rs` lines 169-250).  `derDecode` stands
for the external `ECDSASign::der_from_bytes` DER decoder (returning the
raw `r` and `s` byte strings, `none` on invalid DER); `sha256` for
sodiumoxide's SHA-256; `remote` for the round trip through `self.client`
(`none` is a transport/service failure).  The first registry entry whose
stored key blob is byte-identical to `pubkey` is selected
(`iter().filter(..).next()`); the response's DER `r`/`s` bytes are
re-framed unmodified into the SSH wire signature. -/
def sign_request (derDecode : Bytes → Option (Bytes × Bytes))
    (sha256 : Bytes → Bytes)
    (remote : AuthenticateRequest → Option AuthenticateResponse)
    (a : Agent) (pubkey data : Bytes) (flags : Nat) : SignOutcome :=
  match a.identities.find? (fun k => k.id.key_blob == pubkey) with
  | none => ⟨a, .error .UnknownKey, []⟩
  | some k =>
    let challenge_hash := sha256 data
    let req : AuthenticateRequest :=
      ⟨challenge_hash, k.key_pair.application, k.key_pair.key_handle⟩
    match remote req with
    | none => ⟨a, .error .RemoteSigningFailure, [req]⟩
    | some resp =>
      match derDecode resp.signature with
      | none => ⟨a, .error .MalformedSignature, [req]⟩
      | some (r, s) =>
        let signature : Bytes :=
          writeU32BE r.length ++ r ++ writeU32BE s.length ++ s
        let out : Bytes :=
          writeU32BE SIG_TYPE_ID_BYTES.length ++ SIG_TYPE_ID_BYTES ++
            writeU32BE signature.length ++ signature ++
            [0x01] ++ writeU32BE resp.counter
        ⟨a, .ok out, [req]⟩

/-- One handler operation, with the external capabilities a signing call
consumes carried alongside it. -/
inductive Op where
  | add (key_type : String) (key_blob : Bytes)
  | sign (derDecode : Bytes → Option (Bytes × Bytes))
      (sha256 : Bytes → Bytes)
      (remote : AuthenticateRequest → Option AuthenticateResponse)
      (pubkey data : Bytes) (flags : Nat)
  | list

/-- The registry state after one operation (`identities` is read-only). -/
def runOp (a : Agent) : Op → Agent
  | .add kt blob => (add_identity a kt blob).1
  | .sign dd h r pk d fl => (sign_request dd h r a pk d fl).agent
  | .list => a

/-- The registry state after a sequence of operations. -/
def run (a : Agent) (ops : List Op) : Agent :=
  ops.foldl runOp a

/-! ## Helper lemmas -/

/-- `find?` returns the head of the first matching suffix. -/
theorem find?_append_cons {α : Type} (p : α → Bool) (pre post : List α) (x : α)
    (hpre : ∀ y ∈ pre, p y = false) (hx : p x = true) :
    (pre ++ x :: post).find? p = some x := by
  induction pre with
  | nil => simp [List.find?_cons, hx]
  | cons y ys ih =>
    have hy : p y = false := hpre y (by simp)
    simp only [List.cons_append, List.find?_cons, hy]
    exact ih fun z hz => hpre z (by simp [hz])

/-- `sign_request` always hands the registry back unchanged. -/
theorem sign_request_agent (derDecode : Bytes → Option (Bytes × Bytes))
    (sha256 : Bytes → Bytes)
    (remote : AuthenticateRequest → Option AuthenticateResponse)
    (a : Agent) (pubkey data : Bytes) (flags : Nat) :
    (sign_request derDecode sha256 remote a pubkey data flags).agent = a := by
  unfold sign_request
  cases hfind : a.identities.find? (fun x => x.id.key_blob == pubkey) with
  | none => rfl
  | some j =>
    dsimp only
    cases remote ⟨sha256 data, j.key_pair.application, j.key_pair.key_handle⟩ with
    | none => rfl
    | some resp =>
      dsimp only
      cases derDecode resp.signature with
      | none => rfl
      | some rs => cases rs; rfl

/-- When the lookup finds `k`, exactly one request is sent, built from the
challenge hash and `k`'s application and key handle. -/
theorem sign_request_sent_of_find (derDecode : Bytes → Option (Bytes × Bytes))
    (sha256 : Bytes → Bytes)
    (remote : AuthenticateRequest → Option AuthenticateResponse)
    (a : Agent) (pubkey data : Bytes) (flags : Nat) (k : KryptonIdentity)
    (hf : a.identities.find? (fun x => x.id.key_blob == pubkey) = some k) :
    (sign_request derDecode sha256 remote a pubkey data flags).sent =
      [⟨sha256 data, k.key_pair.application, k.key_pair.key_handle⟩] := by
  unfold sign_request
  cases hfind : a.identities.find? (fun x => x.id.key_blob == pubkey) with
  | none => rw [hfind] at hf; cases hf
  | some j =>
    rw [hfind] at hf
    injection hf with hjk
    subst hjk
    dsimp only
    cases remote ⟨sha256 data, j.key_pair.application, j.key_pair.key_handle⟩ with
    | none => rfl
    | some resp =>
      dsimp only
      cases derDecode resp.signature with
      | none => rfl
      | some rs => cases rs; rfl

/-- The comment-emptiness invariant on a registry. -/
def commentsEmpty (a : Agent) : Prop :=
  ∀ k ∈ a.identities, k.id.key_comment = ""

/-- One operation preserves comment emptiness. -/
theorem commentsEmpty_runOp (a : Agent) (op : Op) (h : commentsEmpty a) :
    commentsEmpty (runOp a op) := by
  cases op with
  | add kt blob =>
    simp only [runOp]
    unfold add_identity
    split
    · exact h
    · split
      · exact h
      · intro k hk
        rcases List.mem_append.1 hk with hmem | heq
        · exact h k hmem
        · rw [List.mem_singleton.1 heq]
  | sign dd sha256 remote pk d fl =>
    simp only [runOp, sign_request_agent]
    exact h
  | list => exact h

/-- Running any sequence of operations preserves comment emptiness. -/
theorem commentsEmpty_run (ops : List Op) (a : Agent) (h : commentsEmpty a) :
    commentsEmpty (run a ops) := by
  induction ops generalizing a with
  | nil => exact h
  | cons op rest ih =>
    exact ih (runOp a op) (commentsEmpty_runOp a op h)

/-- `read_u8` on a non-empty buffer takes the head byte. -/
theorem read_u8_cons (b : Nat) (rest : Bytes) :
    read_u8 (b :: rest) = some (b, rest) := rfl

/-- Writing the four big-endian digits of a value below `2 ^ 32` recovers
the digits. -/
theorem writeU32BE_digits (b0 b1 b2 b3 : Nat) (h0 : b0 < 256) (h1 : b1 < 256)
    (h2 : b2 < 256) (h3 : b3 < 256) :
    writeU32BE (((b0 * 256 + b1) * 256 + b2) * 256 + b3) = [b0, b1, b2, b3] := by
  unfold writeU32BE
  simp only [List.cons.injEq, and_true]
  refine ⟨?_, ?_, ?_, ?_⟩ <;> omega

/-- `read_data` succeeds on a well-formed length-prefixed field and returns
the field and the trailing bytes. -/
theorem read_data_lenPrefixed (b rest : Bytes) (h : b.length < 2 ^ 32) :
    read_data (lenPrefixed b ++ rest) = some (b, rest) := by
  have hw : lenPrefixed b ++ rest =
      b.length / 2 ^ 24 % 256 :: (b.length / 2 ^ 16 % 256 ::
        (b.length / 2 ^ 8 % 256 :: (b.length % 256 :: (b ++ rest)))) := by
    simp [lenPrefixed, writeU32BE]
  rw [hw]
  unfold read_data
  dsimp only
  have hn : ((b.length / 2 ^ 24 % 256 * 256 + b.length / 2 ^ 16 % 256) * 256 +
      b.length / 2 ^ 8 % 256) * 256 + b.length % 256 = b.length := by omega
  rw [hn]
  rw [if_pos (by rw [List.length_append]; exact Nat.le_add_right _ _)]
  rw [List.take_left, List.drop_left]

/-- A successful `read_data` means the buffer starts with a well-formed
length-prefixed field. -/
theorem read_data_some (blob x rest : Bytes) (hb : ∀ b ∈ blob, b < 256)
    (h : read_data blob = some (x, rest)) :
    blob = lenPrefixed x ++ rest ∧ x.length < 2 ^ 32 := by
  rcases blob with _ | ⟨b0, _ | ⟨b1, _ | ⟨b2, _ | ⟨b3, t⟩⟩⟩⟩
  · cases h
  · cases h
  · cases h
  · cases h
  · have hb0 : b0 < 256 := hb b0 (by simp)
    have hb1 : b1 < 256 := hb b1 (by simp)
    have hb2 : b2 < 256 := hb b2 (by simp)
    have hb3 : b3 < 256 := hb b3 (by simp)
    unfold read_data at h
    dsimp only at h
    split at h
    · simp only [Option.some.injEq, Prod.mk.injEq] at h
      obtain ⟨hx, hr⟩ := h
      have hlen : x.length = ((b0 * 256 + b1) * 256 + b2) * 256 + b3 := by
        rw [← hx]
        rw [List.length_take]
        omega
      constructor
      · rw [lenPrefixed, hlen, writeU32BE_digits b0 b1 b2 b3 hb0 hb1 hb2 hb3]
        rw [← hx, ← hr]
        simp
      · omega
    · cases h

/-- A successful registration-blob decode means the blob consists of the
five parsed fields in order, followed by arbitrary unread bytes. -/
theorem decode_registration_blob_some (blob : Bytes) (r : SshFido2KeyPair)
    (hb : ∀ b ∈ blob, b < 256)
    (h : decode_registration_blob blob = some r) :
    ∃ curve rest, blob = lenPrefixed curve ++ lenPrefixed r.public_key ++
      lenPrefixed r.application ++ [r.flags] ++ lenPrefixed r.key_handle ++ rest := by
  unfold decode_registration_blob read_string at h
  cases h1 : read_data blob with
  | none => rw [h1] at h; cases h
  | some p1 =>
    obtain ⟨curve, r1⟩ := p1
    rw [h1] at h
    dsimp only at h
    obtain ⟨hblob, -⟩ := read_data_some blob curve r1 hb h1
    have hb1 : ∀ b ∈ r1, b < 256 := fun b hm =>
      hb b (by rw [hblob]; exact List.mem_append.2 (Or.inr hm))
    cases h2 : read_data r1 with
    | none => rw [h2] at h; cases h
    | some p2 =>
      obtain ⟨pk, r2⟩ := p2
      rw [h2] at h
      dsimp only at h
      obtain ⟨hr1, -⟩ := read_data_some r1 pk r2 hb1 h2
      have hb2 : ∀ b ∈ r2, b < 256 := fun b hm =>
        hb1 b (by rw [hr1]; exact List.mem_append.2 (Or.inr hm))
      cases h3 : read_data r2 with
      | none => rw [h3] at h; cases h
      | some p3 =>
        obtain ⟨app, r3⟩ := p3
        rw [h3] at h
        dsimp only at h
        obtain ⟨hr2, -⟩ := read_data_some r2 app r3 hb2 h3
        have hb3 : ∀ b ∈ r3, b < 256 := fun b hm =>
          hb2 b (by rw [hr2]; exact List.mem_append.2 (Or.inr hm))
        cases r3 with
        | nil => cases h
        | cons fl r4 =>
          unfold read_u8 at h
          dsimp only at h
          have hb4 : ∀ b ∈ r4, b < 256 := fun b hm => hb3 b (by simp [hm])
          cases h5 : read_data r4 with
          | none => rw [h5] at h; cases h
          | some p5 =>
            obtain ⟨kh, r5⟩ := p5
            rw [h5] at h
            dsimp only at h
            obtain ⟨hr4, -⟩ := read_data_some r4 kh r5 hb4 h5
            injection h with hfields
            refine ⟨curve, r5, ?_⟩
            rw [hblob, hr1, hr2, hr4, ← hfields]
            simp [List.append_assoc]

/-! ## Claims -/

/-- C8: `sign_request` ignores its `flags` argument: two calls from the same
registry with the same `pubkey` and `data`, the same DER decoder, hash and
remote service, but different `flags`, have identical outcomes (registry,
result and sent requests). -/
theorem sign_request_ignores_flags (derDecode : Bytes → Option (Bytes × Bytes))
    (sha256 : Bytes → Bytes)
    (remote : AuthenticateRequest → Option AuthenticateResponse)
    (a : Agent) (pubkey data : Bytes) (f1 f2 : Nat) :
    sign_request derDecode sha256 remote a pubkey data f1 =
      sign_request derDecode sha256 remote a pubkey data f2 := rfl

/-- C9: `sign_request` never changes the registry, whether it succeeds or
fails with an unknown key, a remote failure, or a malformed DER signature. -/
theorem sign_request_preserves_registry (derDecode : Bytes → Option (Bytes × Bytes))
    (sha256 : Bytes → Bytes)
    (remote : AuthenticateRequest → Option AuthenticateResponse)
    (a : Agent) (pubkey data : Bytes) (flags : Nat) :
    (sign_request derDecode sha256 remote a pubkey data flags).agent = a :=
  sign_request_agent derDecode sha256 remote a pubkey data flags

/-- C2: when no registered identity's stored key blob is byte-identical to
`pubkey`, `sign_request` fails with `UnknownKey` and sends no request to the
remote signing service. -/
theorem sign_request_unknown_key (derDecode : Bytes → Option (Bytes × Bytes))
    (sha256 : Bytes → Bytes)
    (remote : AuthenticateRequest → Option AuthenticateResponse)
    (a : Agent) (pubkey data : Bytes) (flags : Nat)
    (h : ∀ k ∈ a.identities, k.id.key_blob ≠ pubkey) :
    (sign_request derDecode sha256 remote a pubkey data flags).result =
        .error .UnknownKey ∧
      (sign_request derDecode sha256 remote a pubkey data flags).sent = [] := by
  have hf : a.identities.find? (fun k => k.id.key_blob == pubkey) = none := by
    rw [List.find?_eq_none]
    intro k hk
    simpa using h k hk
  unfold sign_request
  rw [hf]
  exact ⟨rfl, rfl⟩

/-- C2 witness: on the empty registry, signing fails with `UnknownKey` and
nothing is sent. -/
theorem sign_request_unknown_key_witness :
    (sign_request (fun _ => none) (fun _ => []) (fun _ => none)
        Agent.new [1] [2] 0).result = .error .UnknownKey ∧
      (sign_request (fun _ => none) (fun _ => []) (fun _ => none)
        Agent.new [1] [2] 0).sent = [] :=
  sign_request_unknown_key (fun _ => none) (fun _ => []) (fun _ => none)
    Agent.new [1] [2] 0 (by intro k hk; simp [Agent.new] at hk)

/-- C6: `add_identity` with a `key_type` different from the supported
algorithm identifier fails with `UnsupportedKeyType` and leaves the registry
(size and contents) unchanged, regardless of the blob. -/
theorem add_identity_unsupported_key_type (a : Agent) (key_type : String)
    (key_blob : Bytes) (h : key_type ≠ SshFido2KeyPair.TYPE_ID) :
    add_identity a key_type key_blob = (a, .error .UnsupportedKeyType) := by
  unfold add_identity
  simp [h]

/-- C6 witness: registering an `ssh-rsa` key fails and changes nothing. -/
theorem add_identity_unsupported_key_type_witness :
    add_identity Agent.new "ssh-rsa" [0, 1, 2] =
      (Agent.new, .error .UnsupportedKeyType) :=
  add_identity_unsupported_key_type Agent.new "ssh-rsa" [0, 1, 2] (by decide)

/-- C5: `add_identity` with the supported key type but a blob the codec
rejects fails with `MalformedBlob` and leaves the registry exactly as it
was. -/
theorem add_identity_malformed_blob (a : Agent) (key_blob : Bytes)
    (h : decode_registration_blob key_blob = none) :
    add_identity a SshFido2KeyPair.TYPE_ID key_blob =
      (a, .error .MalformedBlob) := by
  unfold add_identity
  simp [h]

/-- C5 witness: the empty blob is malformed and rejected without touching
the registry. -/
theorem add_identity_malformed_blob_witness :
    add_identity Agent.new SshFido2KeyPair.TYPE_ID [] =
      (Agent.new, .error .MalformedBlob) :=
  add_identity_malformed_blob Agent.new [] rfl

/-- C1: a successful `sign_request` returns exactly: 4-byte big-endian
length + the algorithm-id string `sk-ecdsa-sha2-nistp256@openssh.com`,
4-byte big-endian length + the inner ECDSA blob, one flags byte `0x01`,
and the 4-byte big-endian counter from the remote response — where the
inner blob is length-prefixed `r` then length-prefixed `s`, with `r` and
`s` exactly the byte strings the DER decoder emitted, unmodified. -/
theorem sign_request_signature_format (derDecode : Bytes → Option (Bytes × Bytes))
    (sha256 : Bytes → Bytes)
    (remote : AuthenticateRequest → Option AuthenticateResponse)
    (a : Agent) (pubkey data : Bytes) (flags : Nat) (k : KryptonIdentity)
    (resp : AuthenticateResponse) (r s : Bytes)
    (hf : a.identities.find? (fun x => x.id.key_blob == pubkey) = some k)
    (hremote : remote ⟨sha256 data, k.key_pair.application, k.key_pair.key_handle⟩ =
      some resp)
    (hdd : derDecode resp.signature = some (r, s)) :
    (sign_request derDecode sha256 remote a pubkey data flags).result =
      .ok (writeU32BE SIG_TYPE_ID_BYTES.length ++ SIG_TYPE_ID_BYTES ++
        writeU32BE (writeU32BE r.length ++ r ++ writeU32BE s.length ++ s).length ++
        (writeU32BE r.length ++ r ++ writeU32BE s.length ++ s) ++
        [0x01] ++ writeU32BE resp.counter) := by
  unfold sign_request
  cases hfind : a.identities.find? (fun x => x.id.key_blob == pubkey) with
  | none => rw [hfind] at hf; cases hf
  | some j =>
    rw [hfind] at hf
    injection hf with hjk
    subst hjk
    dsimp only
    rw [hremote]
    dsimp only
    rw [hdd]

/-- Registry entry used by the concrete witnesses: stored key blob `[9]`,
application `[5]`, key handle `[6]`, public key `[7]`, flags `1`. -/
def idK : KryptonIdentity :=
  ⟨⟨[9], ""⟩, ⟨[5], [6], [7], 1⟩⟩

/-- Stub hash used by the concrete witnesses: 32 zero bytes. -/
def sha32 : Bytes → Bytes := fun _ => List.replicate 32 0

/-- C1 witness: with the one-entry registry, a remote answering DER bytes
that decode to `r = [1]`, `s = [2]` and counter 7, the returned signature
has exactly the claimed layout. -/
theorem sign_request_signature_format_witness :
    (sign_request (fun _ => some ([1], [2])) sha32 (fun _ => some ⟨[0xAA], 7⟩)
        ⟨[idK]⟩ [9] [2] 0).result =
      .ok (writeU32BE SIG_TYPE_ID_BYTES.length ++ SIG_TYPE_ID_BYTES ++
        writeU32BE (writeU32BE ([1] : Bytes).length ++ [1] ++
          writeU32BE ([2] : Bytes).length ++ [2]).length ++
        (writeU32BE ([1] : Bytes).length ++ [1] ++
          writeU32BE ([2] : Bytes).length ++ [2]) ++
        [0x01] ++ writeU32BE (7 : Nat)) :=
  sign_request_signature_format (fun _ => some ([1], [2])) sha32
    (fun _ => some ⟨[0xAA], 7⟩) ⟨[idK]⟩ [9] [2] 0 idK ⟨[0xAA], 7⟩ [1] [2]
    rfl rfl rfl

/-- C4: when the identities list is `pre ++ rec :: post`, no entry of `pre`
matches `pubkey` and `rec` does, `sign_request` selects `rec` (the first
match in registration order) and sends exactly one request, carrying the
32-byte hash of the challenge data, `rec`'s application as relying-party
id, and `rec`'s key handle.  SHA-256 itself is the external sodiumoxide
primitive, abstracted as the `sha256` parameter. -/
theorem sign_request_first_match_request (derDecode : Bytes → Option (Bytes × Bytes))
    (sha256 : Bytes → Bytes)
    (remote : AuthenticateRequest → Option AuthenticateResponse)
    (pre post : List KryptonIdentity) (rec : KryptonIdentity)
    (pubkey data : Bytes) (flags : Nat)
    (hpre : ∀ y ∈ pre, y.id.key_blob ≠ pubkey)
    (hrec : rec.id.key_blob = pubkey)
    (h32 : (sha256 data).length = 32) :
    (sign_request derDecode sha256 remote ⟨pre ++ rec :: post⟩ pubkey data flags).sent =
        [⟨sha256 data, rec.key_pair.application, rec.key_pair.key_handle⟩] ∧
      ∀ q ∈ (sign_request derDecode sha256 remote ⟨pre ++ rec :: post⟩
          pubkey data flags).sent, q.challenge.length = 32 := by
  have hf : (⟨pre ++ rec :: post⟩ : Agent).identities.find?
      (fun x => x.id.key_blob == pubkey) = some rec := by
    apply find?_append_cons
    · intro y hy
      simp only [beq_eq_false_iff_ne, ne_eq]
      exact hpre y hy
    · simp only [beq_iff_eq]
      exact hrec
  have hs := sign_request_sent_of_find derDecode sha256 remote ⟨pre ++ rec :: post⟩
    pubkey data flags rec hf
  refine ⟨hs, ?_⟩
  intro q hq
  rw [hs] at hq
  rw [List.mem_singleton.1 hq]
  exact h32

/-- C4 witness: with the single matching entry `idK`, the one request sent
carries the 32-byte hash, `idK`'s application and `idK`'s key handle. -/
theorem sign_request_first_match_request_witness :
    (sign_request (fun _ => none) sha32 (fun _ => none)
        ⟨[] ++ idK :: []⟩ [9] [2] 0).sent =
      [⟨sha32 [2], idK.key_pair.application, idK.key_pair.key_handle⟩] :=
  (sign_request_first_match_request (fun _ => none) sha32 (fun _ => none)
    [] [] idK [9] [2] 0 (fun y hy => absurd hy (List.not_mem_nil y)) rfl rfl).1

/-- C7: a successful `add_identity` appends exactly one identity: the
listing afterwards is the old listing followed by the new identity (so its
length grows by one, the new entry is last, and all previous entries are
unchanged and in order). -/
theorem add_identity_success_appends (a : Agent) (key_blob : Bytes)
    (kp : SshFido2KeyPair) (h : decode_registration_blob key_blob = some kp) :
    identities (add_identity a SshFido2KeyPair.TYPE_ID key_blob).1 =
        identities a ++ [⟨kp.fmt_public_key, ""⟩] ∧
      (add_identity a SshFido2KeyPair.TYPE_ID key_blob).2 = .ok () ∧
      (identities (add_identity a SshFido2KeyPair.TYPE_ID key_blob).1).length =
        (identities a).length + 1 := by
  unfold add_identity
  simp [h, identities]

/-- A concrete well-formed registration blob: empty curve name, public key
`[6]`, application `[7]`, flags `1`, key handle `[8]`, and nothing after
the key handle. -/
def regBlob0 : Bytes :=
  [0, 0, 0, 0, 0, 0, 0, 1, 6, 0, 0, 0, 1, 7, 1, 0, 0, 0, 1, 8]

/-- C7 witness: registering `regBlob0` on the empty registry appends
exactly the one new identity. -/
theorem add_identity_success_appends_witness :
    identities (add_identity Agent.new SshFido2KeyPair.TYPE_ID regBlob0).1 =
        identities Agent.new ++
          [⟨SshFido2KeyPair.fmt_public_key ⟨[7], [8], [6], 1⟩, ""⟩] ∧
      (add_identity Agent.new SshFido2KeyPair.TYPE_ID regBlob0).2 = .ok () ∧
      (identities (add_identity Agent.new SshFido2KeyPair.TYPE_ID regBlob0).1).length =
        (identities Agent.new).length + 1 :=
  add_identity_success_appends Agent.new regBlob0 ⟨[7], [8], [6], 1⟩ rfl

/-- C10: whatever sequence of operations is run from a fresh agent, every
pair returned by `identities()` carries the empty comment string. -/
theorem identities_comments_empty (ops : List Op) (i : Identity)
    (h : i ∈ identities (run Agent.new ops)) : i.key_comment = "" := by
  rcases List.mem_map.1 h with ⟨k, hk, rfl⟩
  exact commentsEmpty_run ops Agent.new
    (fun k hk => absurd hk (List.not_mem_nil k)) k hk

/-- C10 witness: after one successful registration, the listed identity has
the empty comment. -/
theorem identities_comments_empty_witness :
    (⟨SshFido2KeyPair.fmt_public_key ⟨[7], [8], [6], 1⟩, ""⟩ : Identity) ∈
        identities (run Agent.new [Op.add SshFido2KeyPair.TYPE_ID regBlob0]) ∧
      (⟨SshFido2KeyPair.fmt_public_key ⟨[7], [8], [6], 1⟩, ""⟩ : Identity).key_comment = "" :=
  have hm : (⟨SshFido2KeyPair.fmt_public_key ⟨[7], [8], [6], 1⟩, ""⟩ : Identity) ∈
      identities (run Agent.new [Op.add SshFido2KeyPair.TYPE_ID regBlob0]) := by
    decide
  ⟨hm, identities_comments_empty [Op.add SshFido2KeyPair.TYPE_ID regBlob0] _ hm⟩

/-- C3 counterexample: a blob that ends immediately after the key-handle
field — no trailing reserved field at all — is accepted by the decode, not
rejected: the cursor in `add_identity` never reads past the key handle. -/
theorem decode_registration_blob_no_reserved_accepted :
    decode_registration_blob
        (lenPrefixed [] ++ lenPrefixed [6] ++ lenPrefixed [7] ++ [1] ++
          lenPrefixed [8]) =
      some ⟨[7], [8], [6], 1⟩ := by decide

/-- C3 (amended): the decode parses, in strict order, a length-prefixed
curve name (discarded), a length-prefixed public key, a length-prefixed
application, one flags byte and a length-prefixed key handle, and then
stops: any remaining bytes — the reserved field included — are left unread,
so a blob ending immediately after the key handle is accepted.  It fails
whenever the buffer is not of that shape (a declared length exceeding the
remaining buffer, or the buffer ending early, within those five fields). -/
theorem decode_registration_blob_amended (curve pk app kh rest : Bytes) (fl : Nat)
    (h1 : curve.length < 2 ^ 32) (h2 : pk.length < 2 ^ 32)
    (h3 : app.length < 2 ^ 32) (h4 : kh.length < 2 ^ 32) :
    decode_registration_blob (lenPrefixed curve ++ lenPrefixed pk ++
        lenPrefixed app ++ [fl] ++ lenPrefixed kh ++ rest) =
      some ⟨app, kh, pk, fl⟩ ∧
    ∀ blob : Bytes, (∀ b ∈ blob, b < 256) →
      ∀ r : SshFido2KeyPair, decode_registration_blob blob = some r →
        ∃ curve2 rest2, blob = lenPrefixed curve2 ++ lenPrefixed r.public_key ++
          lenPrefixed r.application ++ [r.flags] ++ lenPrefixed r.key_handle ++ rest2 := by
  constructor
  · unfold decode_registration_blob read_string
    simp only [List.append_assoc, List.singleton_append, List.cons_append]
    rw [read_data_lenPrefixed curve _ h1]
    dsimp only
    rw [read_data_lenPrefixed pk _ h2]
    dsimp only
    rw [read_data_lenPrefixed app _ h3]
    dsimp only
    simp only [read_u8_cons, List.nil_append]
    rw [read_data_lenPrefixed kh rest h4]
  · exact fun blob hb r h => decode_registration_blob_some blob r hb h

/-- C3 amended witness: the five fields of `regBlob0`'s layout are parsed
and the empty trailer is ignored. -/
theorem decode_registration_blob_amended_witness :
    decode_registration_blob (lenPrefixed [] ++ lenPrefixed [6] ++
        lenPrefixed [7] ++ [1] ++ lenPrefixed [8] ++ []) =
      some ⟨[7], [8], [6], 1⟩ :=
  (decode_registration_blob_amended [] [6] [7] [8] [] 1
    (by decide) (by decide) (by decide) (by decide)).1

end Akr
